import Mathlib

/-!
Verification of the EIP-712-style typed-data hashing core
(`src/Ethereum/ABI/ParamStruct.cpp`).

The embedding models:
- `Param` / `ParamNamed` / `ParamStruct`: the data model (atomic typed
  values and named struct types);
- the canonical type-string machinery (`getType`, `getExtraTypes`,
  `encodeType`);
- the hash-chaining engine (`encodeHashes`, `hashStruct`, `hashType`),
  parametrized by the external 256-bit hash oracle `H` and the external
  atomic-value hash `AH` (the primitive-value encoders are out of scope
  in the source tree);
- the JSON-driven schema construction (`makeType`, `makeTypes`) and the
  value binder (`makeStruct`, `hashStructJson`), over an embedded JSON
  value type (generic JSON parsing is an external collaborator; the
  embedding operates on parsed values in iterator order).
-/

/-- Byte strings, as in `TW::Data` (`std::vector<uint8_t>`); bytes as `Nat`. -/
abbrev Data := List Nat

/-- A parsed JSON value, the post-parse representation handed to the core by
the external JSON parser; object fields are listed in iteration order of the
parsed document. -/
inductive Json where
  | null : Json
  | bool (b : Bool) : Json
  | num (n : Int) : Json
  | str (s : String) : Json
  | arr (elems : List Json) : Json
  | obj (fields : List (String × Json)) : Json

/-- A typed parameter value: an atomic value (type tag plus the raw bound
value, empty for unbound templates), or a struct (`ParamStruct` as a nested
value: type name plus named fields). -/
inductive Param where
  | atomic (ty : String) (val : String) : Param
  | pstruct (name : String) (params : List (String × Param)) : Param

/-- A named parameter: a field name paired with its typed value
(`ParamNamed` in the source). -/
abbrev ParamNamed := String × Param

/-- `ParamStruct`: a named type built from a named parameter set. -/
structure ParamStruct where
  name : String
  params : List ParamNamed

/-- View a `ParamStruct` as a `Param` value (sub-struct position). -/
def ParamStruct.toParam (s : ParamStruct) : Param :=
  .pstruct s.name s.params

/-- The value type name of a parameter: the atomic type tag, or the struct's
type name (`ParamBase::getType` / `ParamStruct::getType` returning `_name`). -/
def Param.getType : Param → String
  | .atomic ty _ => ty
  | .pstruct n _ => n

/-- `ParamNamed::getType`: `_param->getType() + " " + _name`
(source lines 23-25). -/
def ParamNamed.getType (p : ParamNamed) : String :=
  Param.getType p.2 ++ " " ++ p.1

/-- `ParamSetNamed::getType` (source lines 47-58): starts from `"("`, appends
a comma before every field fragment except the first, closes with `")"`. -/
def ParamSetNamed.getType (ps : List ParamNamed) : String :=
  (ps.foldl
    (fun (acc : String × Nat) p =>
      ((if acc.2 > 0 then acc.1 ++ "," else acc.1) ++ ParamNamed.getType p,
       acc.2 + 1))
    ("(", 0)).1 ++ ")"

mutual

/-- `ParamNamed::getExtraTypes` delegating to the wrapped value
(the delegation lives in the header, out of `src/`; per the spec, atomic
values contribute nothing and struct values recurse as
`ParamStruct::getExtraTypes`, source lines 113-121). The by-reference
`ignoreList` is modelled by returning the updated list. -/
def Param.getExtraTypes : Param → List String → String × List String
  | .atomic _ _, ignoreList => ("", ignoreList)
  | .pstruct n ps, ignoreList =>
    let step :=
      if ignoreList.contains n then ("", ignoreList)
      else (n ++ ParamSetNamed.getType ps, ignoreList ++ [n])
    let rest := ParamSetNamed.getExtraTypes ps step.2
    (step.1 ++ rest.1, rest.2)

/-- `ParamSetNamed::getExtraTypes` (source lines 68-78): for each field in
order, if the field's value type name is not yet in the ignore list, append
the field's extra types (recursing first) and then push the type name. -/
def ParamSetNamed.getExtraTypes : List ParamNamed → List String → String × List String
  | [], ignoreList => ("", ignoreList)
  | p :: rest, ignoreList =>
    let pType := Param.getType p.2
    if ignoreList.contains pType then
      ParamSetNamed.getExtraTypes rest ignoreList
    else
      let inner := Param.getExtraTypes p.2 ignoreList
      let tail := ParamSetNamed.getExtraTypes rest (inner.2 ++ [pType])
      (inner.1 ++ tail.1, tail.2)

end

/-- `ParamStruct::getExtraTypes` (source lines 113-121). -/
def ParamStruct.getExtraTypes (s : ParamStruct) (ignoreList : List String) :
    String × List String :=
  Param.getExtraTypes s.toParam ignoreList

/-- Modelled from the spec: the struct's full type string. The header
declaring `ParamStruct::encodeType` is not under `src/`; the spec fixes its
value through `hashType() = Hash(UTF8Bytes(encodeType() + getExtraTypes()))`
together with source lines 89-91 and 97-98, which apply the hash to
`encodeType()` alone: the full type string is the struct's own canonical
type string followed by its extra types, i.e. `getExtraTypes` started from
an empty ignore list. -/
def ParamStruct.encodeType (s : ParamStruct) : String :=
  (ParamStruct.getExtraTypes s []).1

/-- `TW::data` applied to a `std::string`: the UTF-8 bytes of the string. -/
def twData (s : String) : Data :=
  s.toUTF8.toList.map (fun b => b.toNat)

/-- `ParamStruct::hashType` (source lines 89-91):
`Hash::keccak256(TW::data(encodeType()))`, with the hash primitive as the
oracle `H`. -/
def ParamStruct.hashType (H : Data → Data) (s : ParamStruct) : Data :=
  H (twData s.encodeType)

mutual

/-- `ParamNamed::hashStruct` delegating to the wrapped value (the delegation
lives in the header, out of `src/`; per the spec it returns the atomic value
hash — external encoder, modelled by the oracle `AH` on the type tag and the
raw bound value — or the nested struct's `hashStruct`, source lines 104-111). -/
def Param.hashStruct (H : Data → Data) (AH : String → String → Data) :
    Param → Data
  | .atomic ty val => AH ty val
  | .pstruct n ps =>
    let paramsHashes := ParamSetNamed.encodeHashes H AH ps
    let hashes :=
      if paramsHashes.length > 0 then
        H (twData (Param.getExtraTypes (.pstruct n ps) []).1) ++ paramsHashes
      else []
    if hashes.length > 0 then H hashes else List.replicate 32 0

/-- `ParamSetNamed::encodeHashes` (source lines 60-66): the concatenation,
in field order, of each field's `hashStruct`. -/
def ParamSetNamed.encodeHashes (H : Data → Data) (AH : String → String → Data) :
    List ParamNamed → Data
  | [] => []
  | (_, v) :: rest =>
    Param.hashStruct H AH v ++ ParamSetNamed.encodeHashes H AH rest

end

/-- `ParamStruct::encodeHashes` (source lines 93-102): if the field set's
hashes are non-empty, the hash of the full type string followed by the field
hashes; otherwise empty. -/
def ParamStruct.encodeHashes (H : Data → Data) (AH : String → String → Data)
    (s : ParamStruct) : Data :=
  let paramsHashes := ParamSetNamed.encodeHashes H AH s.params
  if paramsHashes.length > 0 then
    H (twData s.encodeType) ++ paramsHashes
  else []

/-- `ParamStruct::hashStruct` (source lines 104-111): hash of
`encodeHashes()` when non-empty, else the all-zero 32-byte value. -/
def ParamStruct.hashStruct (H : Data → Data) (AH : String → String → Data)
    (s : ParamStruct) : Data :=
  let hashes := ParamStruct.encodeHashes H AH s
  if hashes.length > 0 then H hashes else List.replicate 32 0

/-- Key lookup in a parsed JSON object, as `nlohmann::json::operator[]` on a
non-const object behaves inside the core: an absent key reads as `null`. -/
def jsonLookup (fields : List (String × Json)) (key : String) : Json :=
  match fields with
  | [] => .null
  | (k, v) :: rest => if k = key then v else jsonLookup rest key

/-- `p2["name"]` on an arbitrary JSON value: member access on a non-object
throws (normalized by the catch-all to the generic input error). -/
def jsonMember : Json → String → Except String Json
  | .obj flds, key => .ok (jsonLookup flds key)
  | _, _ => .error "Could not process Json"

/-- `value.get<std::string>()`: succeeds only on a JSON string; on anything
else it throws (normalized by the catch-all to the generic input error). -/
def jsonGetString : Json → Except String String
  | .str s => .ok s
  | _ => .error "Could not process Json"

/-- Modelled from the spec: the Atomic Value Factory (`ParamFactory`, an
external collaborator whose source is not under `src/`) either recognizes a
type tag as atomic or signals "not atomic"; only the two atomic encoders
exercised by this core, `"string"` and `"address"`, are modelled. -/
def ParamFactory.isAtomic (ty : String) : Bool :=
  ty = "string" || ty = "address"

/-- Modelled from the spec: `ParamFactory::makeNamed` produces an empty
typed value container for a recognized atomic tag, or none for a struct
reference. -/
def ParamFactory.makeNamed (name ty : String) : Option ParamNamed :=
  if ParamFactory.isAtomic ty then some (name, .atomic ty "") else none

/-- `findType` (source lines 129-136): linear scan of the registry by type
name. -/
def findType (typeName : String) (types : List ParamStruct) : Option ParamStruct :=
  match types with
  | [] => none
  | t :: rest => if t.name = typeName then some t else findType typeName rest

/-- The field-declaration loop of `ParamStruct::makeType` (source lines
207-225): read `name` and `type` from each declaration, reject empty ones,
build an atomic template via the factory or resolve a struct reference
against the previously built templates. -/
def makeTypeParams (structName : String) (fieldDecls : List Json)
    (extraTypes : List ParamStruct) : Except String (List ParamNamed) :=
  match fieldDecls with
  | [] => .ok []
  | p2 :: rest =>
    match jsonMember p2 "name" with
    | .error e => .error e
    | .ok nj =>
      match jsonGetString nj with
      | .error e => .error e
      | .ok name =>
        match jsonMember p2 "type" with
        | .error e => .error e
        | .ok tj =>
          match jsonGetString tj with
          | .error e => .error e
          | .ok ty =>
            if name.isEmpty || ty.isEmpty then
              .error ("Expecting name and type, in " ++ structName)
            else
              match ParamFactory.makeNamed name ty with
              | some named =>
                match makeTypeParams structName rest extraTypes with
                | .error e => .error e
                | .ok tail => .ok (named :: tail)
              | none =>
                match findType ty extraTypes with
                | none => .error ("Unknown type " ++ ty)
                | some p2struct =>
                  match makeTypeParams structName rest extraTypes with
                  | .error e => .error e
                  | .ok tail => .ok ((name, p2struct.toParam) :: tail)

/-- `ParamStruct::makeType` (source lines 194-237), on the parsed schema
element: the iterator loop breaks after the first key, so only the first
key of the object is honored; a non-array value under that key is an
error; iteration over a scalar throws at `it1.key()` (normalized to the
generic input error), while `null` and the empty object iterate zero times
and fall through to the empty-parameter check. -/
def ParamStruct.makeType (t : Json) (extraTypes : List ParamStruct) :
    Except String ParamStruct :=
  match t with
  | .obj ((structName, v) :: _) =>
    match v with
    | .arr fieldDecls =>
      match makeTypeParams structName fieldDecls extraTypes with
      | .error e => .error e
      | .ok params =>
        if params.length = 0 then .error "No valid params found"
        else .ok ⟨structName, params⟩
    | _ => .error ("Expecting array, " ++ structName)
  | .obj [] => .error "No valid params found"
  | .null => .error "No valid params found"
  | .arr [] => .error "No valid params found"
  | _ => .error "Could not process Json"

/-- The element loop of `ParamStruct::makeTypes` (source lines 249-253):
each element is turned into a template with the previously built templates
as resolution context, then appended. -/
def makeTypesList (elems : List Json) (acc : List ParamStruct) :
    Except String (List ParamStruct) :=
  match elems with
  | [] => .ok acc
  | t :: rest =>
    match ParamStruct.makeType t acc with
    | .error e => .error e
    | .ok struct1 => makeTypesList rest (acc ++ [struct1])

/-- `ParamStruct::makeTypes` (source lines 239-260) on the parsed schema
document: must be an array; elements are processed in array order. -/
def ParamStruct.makeTypes (j : Json) : Except String (List ParamStruct) :=
  match j with
  | .arr elems => makeTypesList elems []
  | _ => .error "Expecting array"

/-- `sizeOf` bound for `jsonLookup`: the looked-up value is no larger than
the field list it came from. -/
theorem jsonLookup_sizeOf_le (fields : List (String × Json)) (key : String) :
    sizeOf (jsonLookup fields key) ≤ sizeOf fields := by
  induction fields with
  | nil => simp [jsonLookup]
  | cons p rest ih =>
    obtain ⟨k, v⟩ := p
    rw [jsonLookup]
    split
    · simp
      try omega
    · refine le_trans ih ?_
      simp
      try omega

/-- Lexicographic helper for the termination argument of the value binder. -/
theorem lexAux (a b d : Nat) (hab : a ≤ b) (hd : 0 < d) :
    Prod.Lex (fun x y : Nat => x < y) (fun x y : Nat => x < y) (a, 0) (b, d) := by
  rcases hab.lt_or_eq with h | h
  · exact Prod.Lex.left _ _ h
  · subst h
    exact Prod.Lex.right _ hd

mutual

/-- `ParamStruct::makeStruct` (source lines 138-192), on parsed JSON values:
rebuild the registry from the schema, resolve the target type, require an
object value, and bind the declared fields in declared order. The C++
`shared_ptr` result is modelled by `Option`, so that returning a null
pointer is representable (`.ok none`). -/
def ParamStruct.makeStruct (structType : String) (value : Json)
    (typesJson : Json) : Except String (Option ParamStruct) :=
  match ParamStruct.makeTypes typesJson with
  | .error e => .error e
  | .ok types =>
    match findType structType types with
    | none => .error ("Type not found, " ++ structType)
    | some typeInfo =>
      match value with
      | .obj flds =>
        match bindParams typeInfo.params flds typesJson types with
        | .error e => .error e
        | .ok params => .ok (some ⟨structType, params⟩)
      | _ => .error "Expecting object"
termination_by (sizeOf value, 0)

/-- The field-binding loop of `ParamStruct::makeStruct` (source lines
156-185): for each declared field, look up the same-named key in the value
object (absent reads as `null`), then bind it as a string, as an address
(hex decoding being an out-of-scope external, the raw hex string is stored),
or recursively as a sub-struct; a recognized atomic tag other than the two
exercised ones is unsupported. -/
def bindParams (decls : List ParamNamed) (flds : List (String × Json))
    (typesJson : Json) (types : List ParamStruct) :
    Except String (List ParamNamed) :=
  match decls with
  | [] => .ok []
  | (name, tmpl) :: rest =>
    let ty := Param.getType tmpl
    let value := jsonLookup flds name
    if ParamFactory.isAtomic ty then
      if ty = "string" then
        match value with
        | .str s =>
          match bindParams rest flds typesJson types with
          | .error e => .error e
          | .ok tail => .ok ((name, .atomic "string" s) :: tail)
        | _ => .error "Could not process Json"
      else if ty = "address" then
        match value with
        | .str s =>
          match bindParams rest flds typesJson types with
          | .error e => .error e
          | .ok tail => .ok ((name, .atomic "address" s) :: tail)
        | _ => .error "Could not process Json"
      else .error ("Unsupported type " ++ ty)
    else
      match findType ty types with
      | none => .error ("Could not find type for sub-struct " ++ ty)
      | some _ =>
        match ParamStruct.makeStruct ty value typesJson with
        | .error e => .error e
        | .ok none => .error ("Could not process sub-struct " ++ ty)
        | .ok (some sub) =>
          match bindParams rest flds typesJson types with
          | .error e => .error e
          | .ok tail => .ok ((name, sub.toParam) :: tail)
termination_by (sizeOf flds, sizeOf decls)
decreasing_by
all_goals simp_wf
all_goals
  first
  | exact Prod.Lex.right _ (by omega)
  | exact lexAux _ _ _ (jsonLookup_sizeOf_le _ _) (by omega)

end

/-- `ParamStruct::hashStructJson` (source lines 123-127): bind the struct,
assert it is non-null, and hash it; the `assert(str)` on the null case is
modelled as a distinguished failure. -/
def ParamStruct.hashStructJson (H : Data → Data) (AH : String → String → Data)
    (structType : String) (value : Json) (typesJson : Json) :
    Except String Data :=
  match ParamStruct.makeStruct structType value typesJson with
  | .error e => .error e
  | .ok none => .error "assertion failed"
  | .ok (some s) => .ok (ParamStruct.hashStruct H AH s)

/-- Concatenation of a list of strings with no separator. -/
def concatAll : List String → String
  | [] => ""
  | s :: rest => s ++ concatAll rest

/-- Comma-separated join of a list of strings. -/
def commaJoin : List String → String
  | [] => ""
  | [s] => s
  | s :: rest => s ++ "," ++ commaJoin rest

mutual

/-- Modelled from the spec: the extra-types traversal as a list of canonical
type strings discovered in first-discovery order — for a struct value not yet
seen, its canonical type string `typeName ++ fields.getType()` followed by
the strings discovered below it; atomic values contribute nothing; the
seen-type-names accumulator is threaded through the whole traversal. -/
def Param.collectTypes : Param → List String → List String × List String
  | .atomic _ _, seen => ([], seen)
  | .pstruct n ps, seen =>
    let step :=
      if seen.contains n then ([], seen)
      else ([n ++ ParamSetNamed.getType ps], seen ++ [n])
    let rest := ParamSetNamed.collectTypes ps step.2
    (step.1 ++ rest.1, rest.2)

/-- Modelled from the spec: the field loop of the discovery traversal — a
field whose value type name is already in the accumulator contributes
nothing; otherwise its discoveries are emitted and its value type name is
added. -/
def ParamSetNamed.collectTypes : List ParamNamed → List String → List String × List String
  | [], seen => ([], seen)
  | p :: rest, seen =>
    let pType := Param.getType p.2
    if seen.contains pType then
      ParamSetNamed.collectTypes rest seen
    else
      let inner := Param.collectTypes p.2 seen
      let tail := ParamSetNamed.collectTypes rest (inner.2 ++ [pType])
      (inner.1 ++ tail.1, tail.2)

end

/-- Lexicographic comparison of character lists by code point. -/
def lexLeCh : List Char → List Char → Bool
  | [], _ => true
  | _ :: _, [] => false
  | a :: as, b :: bs =>
    if a.toNat < b.toNat then true
    else if b.toNat < a.toNat then false
    else lexLeCh as bs

/-- Alphabetical (code-point lexicographic) comparison of strings. -/
def alphaLe (a b : String) : Bool := lexLeCh a.data b.data

/-- Well-formedness of one field declaration against the set of type names
already declared: the declaration is an object whose `name` and `type` keys
hold non-empty strings, and the type tag is either atomic or already
declared. -/
def goodField (names : List String) (f : Json) : Bool :=
  match f with
  | .obj flds =>
    match jsonLookup flds "name", jsonLookup flds "type" with
    | .str n, .str ty =>
      !n.isEmpty && !ty.isEmpty &&
        (ParamFactory.isAtomic ty || names.contains ty)
    | _, _ => false
  | _ => false

/-- The type name a schema element declares: its first key. -/
def elemName : Json → String
  | .obj ((k, _) :: _) => k
  | _ => ""

/-- A schema element is well formed against the already-declared names when
its first key holds a non-empty array of well-formed field declarations. -/
def goodElem (names : List String) : Json → Bool
  | .obj ((_, .arr (f :: fs)) :: _) => (f :: fs).all (goodField names)
  | _ => false

/-- A schema is well formed when every element is well formed against the
names declared by the elements preceding it in the array. -/
def goodSchema (names : List String) : List Json → Bool
  | [] => true
  | t :: ts => goodElem names t && goodSchema (names ++ [elemName t]) ts

/-- A concrete stand-in for the hash oracle: every digest is thirty-two
bytes of value one (used to instantiate hypotheses at concrete inputs). -/
def hashOne : Data → Data := fun _ => List.replicate 32 1

/-- A concrete stand-in for the hash oracle returning all-zero digests. -/
def hashZero : Data → Data := fun _ => List.replicate 32 0

/-- A concrete stand-in for the atomic value hash: thirty-two bytes of
value seven. -/
def atomicHash7 : String → String → Data := fun _ _ => List.replicate 32 7

/-- A two-field struct whose fields reference the struct types `B` and `A`,
in that order: its discovery order is not alphabetical. -/
def unsortedEg : ParamStruct :=
  ⟨"Top", [("x", .pstruct "B" [("b", .atomic "string" "")]),
           ("y", .pstruct "A" [("a", .atomic "string" "")])]⟩

/-- The one-type schema `[{"Mail":[{"name":"content","type":"string"}]}]`. -/
def mailTypesJson : Json :=
  .arr [.obj [("Mail", .arr [.obj [("name", .str "content"),
                                   ("type", .str "string")]])]]

/-- The value document `{"content":"hi"}`. -/
def mailValueJson : Json := .obj [("content", .str "hi")]

/-- The forward-reference schema: `Mail` references `Person`, which is only
declared by the later array element. -/
def fwdTypesJson : Json :=
  .arr [.obj [("Mail", .arr [.obj [("name", .str "from"),
                                   ("type", .str "Person")]])],
        .obj [("Person", .arr [.obj [("name", .str "name"),
                                     ("type", .str "string")]])]]

/-- The struct-valued `Param.hashStruct` agrees with `ParamStruct.hashStruct`
on the corresponding `ParamStruct`. -/
theorem Param.hashStruct_pstruct (H : Data → Data) (AH : String → String → Data)
    (n : String) (ps : List ParamNamed) :
    Param.hashStruct H AH (.pstruct n ps) =
      ParamStruct.hashStruct H AH ⟨n, ps⟩ := by
  rw [Param.hashStruct]
  rfl

/-- `concatAll` distributes over list append. -/
theorem concatAll_append (a b : List String) :
    concatAll (a ++ b) = concatAll a ++ concatAll b := by
  induction a with
  | nil => simp [concatAll]
  | cons x rest ih => simp [concatAll, ih, String.append_assoc]

/-- Every `Param` has positive size. -/
theorem Param.sizeOf_pos (p : Param) : 0 < sizeOf p := by
  cases p <;> simp

/-- Every list of named parameters has positive size. -/
theorem ParamNamed.list_sizeOf_pos (ps : List ParamNamed) : 0 < sizeOf ps := by
  cases ps <;> simp

/-- C1: for every `ParamStruct`, `hashStruct()` returns `Hash(encodeHashes())`
when `encodeHashes()` is non-empty and the fixed all-zero 32-byte value
otherwise; in particular a struct with no fields bound hashes to the
all-zero sentinel and — whenever the hash oracle maps the empty byte string
anywhere else — never to the hash of the empty byte string. -/
theorem claim1_hashStruct (H : Data → Data) (AH : String → String → Data)
    (s : ParamStruct) :
    (ParamStruct.encodeHashes H AH s ≠ [] →
      ParamStruct.hashStruct H AH s = H (ParamStruct.encodeHashes H AH s)) ∧
    (ParamStruct.encodeHashes H AH s = [] →
      ParamStruct.hashStruct H AH s = List.replicate 32 0) ∧
    (s.params = [] →
      ParamStruct.hashStruct H AH s = List.replicate 32 0) ∧
    (s.params = [] → H [] ≠ List.replicate 32 0 →
      ParamStruct.hashStruct H AH s ≠ H []) := by
  have hzero : ParamStruct.encodeHashes H AH s = [] →
      ParamStruct.hashStruct H AH s = List.replicate 32 0 := by
    intro h
    unfold ParamStruct.hashStruct
    rw [h]
    simp
  have hempty : s.params = [] → ParamStruct.encodeHashes H AH s = [] := by
    intro h
    unfold ParamStruct.encodeHashes
    rw [h]
    simp [ParamSetNamed.encodeHashes]
  refine ⟨?_, hzero, fun h => hzero (hempty h), ?_⟩
  · intro h
    unfold ParamStruct.hashStruct
    rw [if_pos (List.length_pos.mpr h)]
  · intro h hne
    rw [hzero (hempty h)]
    exact fun hc => hne hc.symm

/-- Witness for C1: a concrete field-less struct hashes to the all-zero
sentinel and not to the oracle digest of the empty byte string. -/
theorem claim1_hashStruct_witness :
    ParamStruct.hashStruct hashOne atomicHash7 ⟨"Empty", []⟩ = List.replicate 32 0 ∧
    ParamStruct.hashStruct hashOne atomicHash7 ⟨"Empty", []⟩ ≠ hashOne [] :=
  ⟨(claim1_hashStruct hashOne atomicHash7 ⟨"Empty", []⟩).2.2.1 rfl,
   (claim1_hashStruct hashOne atomicHash7 ⟨"Empty", []⟩).2.2.2 rfl (by decide)⟩

/-- C2: for every `ParamStruct`, `encodeHashes()` is
`hashType() || fields.encodeHashes()` when the field set's `encodeHashes()`
is non-empty and the empty byte string otherwise. -/
theorem claim2_encodeHashes (H : Data → Data) (AH : String → String → Data)
    (s : ParamStruct) :
    (ParamSetNamed.encodeHashes H AH s.params ≠ [] →
      ParamStruct.encodeHashes H AH s =
        ParamStruct.hashType H s ++ ParamSetNamed.encodeHashes H AH s.params) ∧
    (ParamSetNamed.encodeHashes H AH s.params = [] →
      ParamStruct.encodeHashes H AH s = []) := by
  constructor
  · intro h
    unfold ParamStruct.encodeHashes ParamStruct.hashType
    rw [if_pos (List.length_pos.mpr h)]
  · intro h
    unfold ParamStruct.encodeHashes
    rw [h]
    simp

/-- Witness for C2: a one-field struct takes the non-empty branch and a
field-less struct takes the empty branch, at concrete oracles. -/
theorem claim2_encodeHashes_witness :
    ParamStruct.encodeHashes hashOne atomicHash7
        ⟨"Mail", [("content", Param.atomic "string" "hi")]⟩ =
      ParamStruct.hashType hashOne
          ⟨"Mail", [("content", Param.atomic "string" "hi")]⟩ ++
        ParamSetNamed.encodeHashes hashOne atomicHash7
          [("content", Param.atomic "string" "hi")] ∧
    ParamStruct.encodeHashes hashOne atomicHash7 ⟨"Empty", []⟩ = [] :=
  ⟨(claim2_encodeHashes hashOne atomicHash7
      ⟨"Mail", [("content", Param.atomic "string" "hi")]⟩).1
      (by simp [ParamSetNamed.encodeHashes, Param.hashStruct, atomicHash7]),
   (claim2_encodeHashes hashOne atomicHash7 ⟨"Empty", []⟩).2
      (by simp [ParamSetNamed.encodeHashes])⟩

/-- Opening step of the extra-types traversal: from an empty ignore list, a
struct contributes its own canonical type string followed by the traversal
that starts with the struct's own name already seen. -/
theorem getExtraTypes_empty_split (n : String) (ps : List ParamNamed) :
    (Param.getExtraTypes (.pstruct n ps) []).1 =
      (n ++ ParamSetNamed.getType ps) ++
        (Param.getExtraTypes (.pstruct n ps) [n]).1 := by
  rw [Param.getExtraTypes, Param.getExtraTypes]
  simp

/-- C3: for every `ParamStruct`, `hashType()` is the hash of the UTF-8 bytes
of the canonical type string `typeName ++ fields.getType()` followed by the
extra types (the transitive struct types of the fields, the struct's own
name being already in the seen list). -/
theorem claim3_hashType (H : Data → Data) (s : ParamStruct) :
    ParamStruct.hashType H s =
      H (twData ((s.name ++ ParamSetNamed.getType s.params) ++
        (ParamStruct.getExtraTypes s [s.name]).1)) := by
  unfold ParamStruct.hashType ParamStruct.encodeType ParamStruct.getExtraTypes
    ParamStruct.toParam
  rw [getExtraTypes_empty_split]

/-- The code's extra-types traversal computes the separator-free
concatenation of the discovery list of `collectTypes`, with the same final
seen-names accumulator; proved for both mutual entry points by strong
induction on size. -/
theorem getExtraTypes_eq_collect_aux (fuel : Nat) :
    (∀ p : Param, sizeOf p ≤ fuel → ∀ seen,
       Param.getExtraTypes p seen =
         (concatAll (Param.collectTypes p seen).1,
          (Param.collectTypes p seen).2)) ∧
    (∀ ps : List ParamNamed, sizeOf ps ≤ fuel → ∀ seen,
       ParamSetNamed.getExtraTypes ps seen =
         (concatAll (ParamSetNamed.collectTypes ps seen).1,
          (ParamSetNamed.collectTypes ps seen).2)) := by
  induction fuel with
  | zero =>
    constructor
    · intro p hp
      exact absurd hp (by have := Param.sizeOf_pos p; omega)
    · intro ps hps
      exact absurd hps (by have := ParamNamed.list_sizeOf_pos ps; omega)
  | succ k ih =>
    constructor
    · intro p hp seen
      match p with
      | .atomic ty v =>
        simp [Param.getExtraTypes, Param.collectTypes, concatAll]
      | .pstruct n ps =>
        have hps : sizeOf ps ≤ k := by
          simp at hp
          omega
        rw [Param.getExtraTypes, Param.collectTypes]
        by_cases hc : seen.contains n
        · simp only [hc, if_true]
          rw [ih.2 ps hps]
          simp [concatAll]
        · simp only [hc, if_false, Bool.false_eq_true]
          rw [ih.2 ps hps]
          simp [concatAll]
    · intro ps hps seen
      match ps with
      | [] =>
        simp [ParamSetNamed.getExtraTypes, ParamSetNamed.collectTypes, concatAll]
      | (a, v) :: rest =>
        have h1 : sizeOf v ≤ k := by
          simp at hps
          omega
        have h2 : sizeOf rest ≤ k := by
          simp at hps
          omega
        rw [ParamSetNamed.getExtraTypes, ParamSetNamed.collectTypes]
        by_cases hc : seen.contains (Param.getType v)
        · simp only [hc, if_true]
          exact ih.2 rest h2 seen
        · simp only [hc, if_false, Bool.false_eq_true]
          rw [ih.1 v h1]
          rw [ih.2 rest h2]
          simp [concatAll_append]

/-- C4: for every `ParamStruct` and every seen-type-names accumulator, the
extra-types string is the separator-free concatenation of the canonical type
strings in the first-discovery list of the traversal (fields skipped when
their value type name is already in the accumulator, which is threaded
through the whole traversal), with the same accumulator coming out; and the
concatenation is not alphabetically sorted, as a struct referencing `B`
before `A` shows. -/
theorem claim4_getExtraTypes (s : ParamStruct) (ignoreList : List String) :
    (ParamStruct.getExtraTypes s ignoreList =
      (concatAll (Param.collectTypes s.toParam ignoreList).1,
       (Param.collectTypes s.toParam ignoreList).2)) ∧
    (ParamStruct.getExtraTypes unsortedEg ["Top"]).1 ≠
      concatAll (List.insertionSort (fun a b => alphaLe a b = true)
        (Param.collectTypes unsortedEg.toParam ["Top"]).1) := by
  constructor
  · exact (getExtraTypes_eq_collect_aux (sizeOf s.toParam)).1 s.toParam le_rfl
      ignoreList
  · have hval : (ParamStruct.getExtraTypes unsortedEg ["Top"]).1 =
        "B(string b)A(string a)" := by
      simp [ParamStruct.getExtraTypes, unsortedEg, ParamStruct.toParam,
        Param.getExtraTypes, ParamSetNamed.getExtraTypes, Param.getType,
        ParamSetNamed.getType, ParamNamed.getType]
    have hcoll : (Param.collectTypes unsortedEg.toParam ["Top"]).1 =
        ["B(string b)", "A(string a)"] := by
      simp [unsortedEg, ParamStruct.toParam, Param.collectTypes,
        ParamSetNamed.collectTypes, Param.getType, ParamSetNamed.getType,
        ParamNamed.getType]
    rw [hval, hcoll]
    decide

/-- Running the field loop of `ParamSetNamed::getType` from a counter that is
already positive appends a comma-prefixed fragment per field. -/
theorem getType_foldl_aux (ps : List ParamNamed) :
    ∀ (acc : String) (c : Nat), 0 < c →
      (ps.foldl (fun (acc2 : String × Nat) p =>
          ((if acc2.2 > 0 then acc2.1 ++ "," else acc2.1) ++ ParamNamed.getType p,
           acc2.2 + 1)) (acc, c)).1 =
        acc ++ concatAll (ps.map (fun p => "," ++ ParamNamed.getType p)) := by
  induction ps with
  | nil =>
    intro acc c hc
    simp [concatAll]
  | cons p rest ih =>
    intro acc c hc
    rw [List.foldl_cons]
    have hstep : (if c > 0 then acc ++ "," else acc) = acc ++ "," := if_pos hc
    simp only [hstep]
    rw [ih (acc ++ "," ++ ParamNamed.getType p) (c + 1) (by omega)]
    simp [concatAll, String.append_assoc]

/-- The comma-separated join of a non-empty list is the head followed by the
comma-prefixed tail fragments. -/
theorem commaJoin_cons (x : String) (l : List String) :
    commaJoin (x :: l) = x ++ concatAll (l.map (fun t => "," ++ t)) := by
  induction l generalizing x with
  | nil => simp [commaJoin, concatAll]
  | cons y ys ih =>
    have hstep : commaJoin (x :: y :: ys) = x ++ "," ++ commaJoin (y :: ys) := rfl
    rw [hstep, ih y]
    simp [concatAll, String.append_assoc]

/-- C6: for every named parameter set, `getType()` is `"("` plus the
comma-separated join of the fields' type fragments plus `")"`, and a named
parameter's fragment is its value type, a space, and its name. -/
theorem claim6_getType :
    (∀ ps : List ParamNamed,
       ParamSetNamed.getType ps =
         "(" ++ commaJoin (ps.map ParamNamed.getType) ++ ")") ∧
    (∀ (n : String) (p : Param),
       ParamNamed.getType (n, p) = Param.getType p ++ " " ++ n) := by
  constructor
  · intro ps
    unfold ParamSetNamed.getType
    cases ps with
    | nil => simp [commaJoin]
    | cons p rest =>
      rw [List.foldl_cons]
      simp only [gt_iff_lt, lt_self_iff_false, if_neg, Nat.lt_irrefl,
        ite_false, reduceIte]
      rw [getType_foldl_aux rest ("(" ++ ParamNamed.getType p) 1 (by omega)]
      rw [List.map_cons, commaJoin_cons]
      simp [String.append_assoc, Function.comp_def]
  · intro n p
    rfl

/-- C9: `makeType` on a schema element with several keys honors only the
first key: the result is the same as on the element holding only the first
key-value pair. -/
theorem claim9_makeType_firstKey (kv : String × Json)
    (rest : List (String × Json)) (extraTypes : List ParamStruct) :
    ParamStruct.makeType (.obj (kv :: rest)) extraTypes =
      ParamStruct.makeType (.obj [kv]) extraTypes := by
  obtain ⟨k, v⟩ := kv
  cases v <;> rfl

/-- C10: `makeStruct` never returns a null struct on the success path, so
`hashStructJson` either propagates the binder's error or hashes the bound
struct — the asserted non-null case is the only success shape. -/
theorem claim10_makeStruct_nonnull :
    (∀ (structType : String) (value typesJson : Json),
       ParamStruct.makeStruct structType value typesJson ≠ Except.ok none) ∧
    (∀ (H : Data → Data) (AH : String → String → Data) (structType : String)
       (value typesJson : Json),
       (∃ e, ParamStruct.makeStruct structType value typesJson = .error e ∧
          ParamStruct.hashStructJson H AH structType value typesJson = .error e) ∨
       (∃ s, ParamStruct.makeStruct structType value typesJson = .ok (some s) ∧
          ParamStruct.hashStructJson H AH structType value typesJson =
            .ok (ParamStruct.hashStruct H AH s))) := by
  have h1 : ∀ (structType : String) (value typesJson : Json),
      ParamStruct.makeStruct structType value typesJson ≠ Except.ok none := by
    intro structType value typesJson
    rw [ParamStruct.makeStruct]
    split
    · simp
    · split
      · simp
      · split
        · split
          · simp
          · simp
        · simp
  refine ⟨h1, ?_⟩
  intro H AH structType value typesJson
  cases hmk : ParamStruct.makeStruct structType value typesJson with
  | error e =>
    left
    refine ⟨e, rfl, ?_⟩
    unfold ParamStruct.hashStructJson
    rw [hmk]
  | ok o =>
    cases o with
    | none => exact absurd hmk (h1 structType value typesJson)
    | some s =>
      right
      refine ⟨s, rfl, ?_⟩
      unfold ParamStruct.hashStructJson
      rw [hmk]

/-- Every struct hash is exactly 32 bytes when the hash oracle always
returns 32 bytes. -/
theorem hashStruct_length (H : Data → Data) (AH : String → String → Data)
    (hH : ∀ b, (H b).length = 32) (s : ParamStruct) :
    (ParamStruct.hashStruct H AH s).length = 32 := by
  simp only [ParamStruct.hashStruct]
  split
  · exact hH _
  · simp

/-- C5: `hashStructJson` returns exactly 32 bytes whenever it succeeds
(given a 32-byte hash oracle), and two calls on identical inputs return
identical output. -/
theorem claim5_hashStructJson (H : Data → Data) (AH : String → String → Data)
    (structType : String) (value typesJson : Json)
    (hH : ∀ b, (H b).length = 32) :
    (∀ d, ParamStruct.hashStructJson H AH structType value typesJson = .ok d →
       d.length = 32) ∧
    ParamStruct.hashStructJson H AH structType value typesJson =
      ParamStruct.hashStructJson H AH structType value typesJson := by
  refine ⟨?_, rfl⟩
  intro d hd
  unfold ParamStruct.hashStructJson at hd
  cases hmk : ParamStruct.makeStruct structType value typesJson with
  | error e =>
    rw [hmk] at hd
    exact absurd hd (by simp)
  | ok o =>
    cases o with
    | none =>
      rw [hmk] at hd
      exact absurd hd (by simp)
    | some s =>
      rw [hmk] at hd
      have : d = ParamStruct.hashStruct H AH s := by
        cases hd
        rfl
      rw [this]
      exact hashStruct_length H AH hH s

/-- The end-to-end hash of the concrete Mail example under the all-zero
oracle evaluates successfully. -/
theorem mailHashEval :
    ParamStruct.hashStructJson hashZero atomicHash7 "Mail" mailValueJson
      mailTypesJson = .ok (List.replicate 32 0) := by
  simp +decide [ParamStruct.hashStructJson, ParamStruct.makeStruct, bindParams,
    ParamStruct.makeTypes, makeTypesList,
    ParamStruct.makeType, makeTypeParams, jsonMember, jsonGetString, jsonLookup,
    findType, ParamFactory.makeNamed, ParamFactory.isAtomic, Param.getType,
    ParamStruct.toParam, mailTypesJson, mailValueJson,
    ParamStruct.hashStruct, ParamStruct.encodeHashes, ParamSetNamed.encodeHashes,
    Param.hashStruct, hashZero, atomicHash7, bind, Except.bind, pure, Except.pure]

/-- Witness for C5: the Mail example returns a 32-byte digest and calling
twice yields identical output. -/
theorem claim5_hashStructJson_witness :
    (List.replicate 32 0 : Data).length = 32 ∧
    ParamStruct.hashStructJson hashZero atomicHash7 "Mail" mailValueJson
        mailTypesJson =
      ParamStruct.hashStructJson hashZero atomicHash7 "Mail" mailValueJson
        mailTypesJson :=
  ⟨(claim5_hashStructJson hashZero atomicHash7 "Mail" mailValueJson
      mailTypesJson (fun b => by simp [hashZero])).1
      (List.replicate 32 0) mailHashEval,
   (claim5_hashStructJson hashZero atomicHash7 "Mail" mailValueJson
      mailTypesJson (fun b => by simp [hashZero])).2⟩

/-- Looking up a key that no field of the object carries reads as `null`. -/
theorem jsonLookup_absent (flds : List (String × Json)) (key : String)
    (h : ∀ kv ∈ flds, kv.1 ≠ key) : jsonLookup flds key = .null := by
  induction flds with
  | nil => rfl
  | cons kv rest ih =>
    obtain ⟨k, v⟩ := kv
    rw [jsonLookup]
    rw [if_neg (h (k, v) (List.mem_cons_self _ _))]
    exact ih (fun kv2 h2 => h kv2 (List.mem_cons_of_mem _ h2))

/-- Binding any type against the `null` value always fails: the registry may
fail, the type may be unknown, and otherwise `null` is not an object. -/
theorem makeStruct_null (ty : String) (tj : Json) :
    ∃ e, ParamStruct.makeStruct ty Json.null tj = .error e := by
  rw [ParamStruct.makeStruct]
  split
  · exact ⟨_, rfl⟩
  · split
    · exact ⟨_, rfl⟩
    · exact ⟨_, rfl⟩

/-- If some declared field's name has no matching key in the value object,
the binding loop fails with an error. -/
theorem bindParams_missing (decls : List ParamNamed)
    (flds : List (String × Json)) (typesJson : Json)
    (types : List ParamStruct) (fname : String) (tmpl : Param)
    (hmem : (fname, tmpl) ∈ decls)
    (habs : ∀ kv ∈ flds, kv.1 ≠ fname) :
    ∃ e, bindParams decls flds typesJson types = .error e := by
  induction decls with
  | nil => exact absurd hmem (List.not_mem_nil _)
  | cons d rest ih =>
    obtain ⟨name, tm⟩ := d
    rw [bindParams]
    rcases List.mem_cons.mp hmem with heq | hmem2
    · obtain ⟨hn, _⟩ := Prod.mk.injEq .. ▸ heq
      subst hn
      rw [jsonLookup_absent flds fname habs]
      by_cases hA : ParamFactory.isAtomic (Param.getType tm)
      · rw [if_pos hA]
        by_cases hs : Param.getType tm = "string"
        · rw [if_pos hs]
          exact ⟨_, rfl⟩
        · rw [if_neg hs]
          by_cases ha : Param.getType tm = "address"
          · rw [if_pos ha]
            exact ⟨_, rfl⟩
          · rw [if_neg ha]
            exact ⟨_, rfl⟩
      · rw [if_neg hA]
        cases hft : findType (Param.getType tm) types with
        | none => exact ⟨_, rfl⟩
        | some sub =>
          obtain ⟨e2, he2⟩ := makeStruct_null (Param.getType tm) typesJson
          rw [he2]
          exact ⟨e2, rfl⟩
    · obtain ⟨e, he⟩ := ih hmem2
      by_cases hA : ParamFactory.isAtomic (Param.getType tm)
      · rw [if_pos hA]
        by_cases hs : Param.getType tm = "string"
        · rw [if_pos hs]
          cases jsonLookup flds name with
          | str s => rw [he]; exact ⟨e, rfl⟩
          | _ => exact ⟨_, rfl⟩
        · rw [if_neg hs]
          by_cases ha : Param.getType tm = "address"
          · rw [if_pos ha]
            cases jsonLookup flds name with
            | str s => rw [he]; exact ⟨e, rfl⟩
            | _ => exact ⟨_, rfl⟩
          · rw [if_neg ha]
            exact ⟨_, rfl⟩
      · rw [if_neg hA]
        cases findType (Param.getType tm) types with
        | none => exact ⟨_, rfl⟩
        | some sub =>
          cases ParamStruct.makeStruct (Param.getType tm)
              (jsonLookup flds name) typesJson with
          | error e2 => exact ⟨e2, rfl⟩
          | ok o =>
            cases o with
            | none => exact ⟨_, rfl⟩
            | some sub2 => rw [he]; exact ⟨e, rfl⟩

/-- C8: if the value object lacks a key named after some field declared on
the resolved type, `makeStruct` fails with an error (and `hashStructJson`
propagates that error); it never substitutes a default value. -/
theorem claim8_missing_field (structType : String)
    (flds : List (String × Json)) (typesJson : Json)
    (types : List ParamStruct) (typeInfo : ParamStruct)
    (fname : String) (tmpl : Param)
    (htys : ParamStruct.makeTypes typesJson = .ok types)
    (hfind : findType structType types = some typeInfo)
    (hmem : (fname, tmpl) ∈ typeInfo.params)
    (habs : ∀ kv ∈ flds, kv.1 ≠ fname) :
    ∃ e, ParamStruct.makeStruct structType (.obj flds) typesJson = .error e ∧
      ∀ (H : Data → Data) (AH : String → String → Data),
        ParamStruct.hashStructJson H AH structType (.obj flds) typesJson =
          .error e := by
  obtain ⟨e, he⟩ := bindParams_missing typeInfo.params flds typesJson types
    fname tmpl hmem habs
  have hms : ParamStruct.makeStruct structType (.obj flds) typesJson =
      .error e := by
    rw [ParamStruct.makeStruct]
    simp only [htys, hfind, he]
  refine ⟨e, hms, ?_⟩
  intro H AH
  unfold ParamStruct.hashStructJson
  rw [hms]

/-- Witness for C8: binding the Mail example against an empty value object
fails. -/
theorem claim8_missing_field_witness :
    ∃ e, ParamStruct.makeStruct "Mail" (.obj []) mailTypesJson = .error e ∧
      ∀ (H : Data → Data) (AH : String → String → Data),
        ParamStruct.hashStructJson H AH "Mail" (.obj []) mailTypesJson =
          .error e :=
  claim8_missing_field "Mail" [] mailTypesJson
    [⟨"Mail", [("content", .atomic "string" "")]⟩]
    ⟨"Mail", [("content", .atomic "string" "")]⟩
    "content" (.atomic "string" "") rfl rfl (List.mem_singleton.mpr rfl)
    (by simp)

/-- A name found in a registry is still found after appending templates. -/
theorem findType_append_left (n : String) (acc l : List ParamStruct)
    (h : (findType n acc).isSome = true) :
    (findType n (acc ++ l)).isSome = true := by
  induction acc with
  | nil => simp [findType] at h
  | cons t rest ih =>
    rw [List.cons_append, findType]
    rw [findType] at h
    by_cases he : t.name = n
    · rw [if_pos he]
      simp
    · rw [if_neg he] at h ⊢
      exact ih h

/-- A template appended under name `n` makes `n` resolvable. -/
theorem findType_append_self (n : String) (acc : List ParamStruct)
    (ps : List ParamNamed) :
    (findType n (acc ++ [⟨n, ps⟩])).isSome = true := by
  induction acc with
  | nil => simp [findType]
  | cons t rest ih =>
    rw [List.cons_append, findType]
    by_cases he : t.name = n
    · rw [if_pos he]
      simp
    · rw [if_neg he]
      exact ih

/-- The element loop over a concatenated schema processes the left part
first and feeds its accumulated registry into the right part. -/
theorem makeTypesList_append (a b : List Json) (acc : List ParamStruct) :
    makeTypesList (a ++ b) acc =
      match makeTypesList a acc with
      | .error e => .error e
      | .ok acc2 => makeTypesList b acc2 := by
  induction a generalizing acc with
  | nil => simp [makeTypesList]
  | cons t rest ih =>
    rw [List.cons_append]
    cases hmk : ParamStruct.makeType t acc with
    | error e =>
      simp only [makeTypesList, hmk]
    | ok s =>
      simp only [makeTypesList, hmk]
      exact ih (acc ++ [s])

/-- Well-formed field declarations always build: the loop returns as many
template parameters as declarations. -/
theorem makeTypeParams_good (names : List String) (acc : List ParamStruct)
    (tn : String) (fields : List Json)
    (hinv : ∀ ty, names.contains ty = true → (findType ty acc).isSome = true)
    (hall : fields.all (goodField names) = true) :
    ∃ params, makeTypeParams tn fields acc = .ok params ∧
      params.length = fields.length := by
  induction fields with
  | nil => exact ⟨[], rfl, rfl⟩
  | cons f rest ih =>
    simp only [List.all_cons, Bool.and_eq_true] at hall
    obtain ⟨hf, hrest⟩ := hall
    obtain ⟨params, hp, hlen⟩ := ih hrest
    unfold goodField at hf
    split at hf
    · split at hf
      · rename_i flds x n ty heq1 heq2
        simp only [Bool.and_eq_true, Bool.not_eq_true', Bool.or_eq_true] at hf
        obtain ⟨⟨h1, h2⟩, h3⟩ := hf
        simp only [makeTypeParams, jsonMember, heq1, heq2, jsonGetString,
          h1, h2, Bool.or_self, Bool.false_eq_true, if_false]
        cases hatom : ParamFactory.isAtomic ty with
        | true =>
          simp only [ParamFactory.makeNamed, hatom, if_true, hp]
          exact ⟨_, rfl, by simp [hlen]⟩
        | false =>
          have hc : names.contains ty = true := by
            rcases h3 with h3 | h3
            · rw [hatom] at h3
              exact absurd h3 (by simp)
            · exact h3
          obtain ⟨p2s, hp2⟩ := Option.isSome_iff_exists.mp (hinv ty hc)
          simp only [ParamFactory.makeNamed, hatom, Bool.false_eq_true,
            if_false, hp2, hp]
          exact ⟨_, rfl, by simp [hlen]⟩
      · exact absurd hf (by simp)
    · exact absurd hf (by simp)

/-- A well-formed schema element builds a template named after its first
key, with one parameter per field declaration. -/
theorem makeType_good (names : List String) (acc : List ParamStruct)
    (t : Json)
    (hinv : ∀ ty, names.contains ty = true → (findType ty acc).isSome = true)
    (hg : goodElem names t = true) :
    ∃ ps, ParamStruct.makeType t acc = .ok ⟨elemName t, ps⟩ := by
  unfold goodElem at hg
  split at hg
  · rename_i k f fs restKeys
    obtain ⟨params, hp, hlen⟩ := makeTypeParams_good names acc k (f :: fs)
      hinv hg
    simp only [ParamStruct.makeType, hp]
    rw [if_neg (by simp [hlen])]
    exact ⟨params, rfl⟩
  · exact absurd hg (by simp)

/-- A well-formed schema builds: the element loop succeeds when every
element is well formed against the names of the elements before it,
provided every already-known name resolves in the accumulated registry. -/
theorem makeTypesList_good (ts : List Json) :
    ∀ (acc : List ParamStruct) (names : List String),
      (∀ ty, names.contains ty = true → (findType ty acc).isSome = true) →
      goodSchema names ts = true →
      ∃ res, makeTypesList ts acc = .ok res := by
  induction ts with
  | nil =>
    intro acc names _ _
    exact ⟨acc, rfl⟩
  | cons t rest ih =>
    intro acc names hinv hg
    rw [goodSchema] at hg
    simp only [Bool.and_eq_true] at hg
    obtain ⟨hg1, hg2⟩ := hg
    obtain ⟨ps, hmk⟩ := makeType_good names acc t hinv hg1
    simp only [makeTypesList, hmk]
    refine ih (acc ++ [⟨elemName t, ps⟩]) (names ++ [elemName t]) ?_ hg2
    intro ty hc
    simp at hc
    rcases hc with h | h
    · exact findType_append_left ty acc _ (hinv ty (by simpa using h))
    · subst h
      exact findType_append_self (elemName t) acc ps

/-- A non-empty string is not empty as a Bool test. -/
theorem isEmpty_false_of_ne (s : String) (h : s ≠ "") : s.isEmpty = false := by
  cases hb : s.isEmpty with
  | true => exact absurd ((String.isEmpty_iff s).mp hb) h
  | false => rfl

/-- A schema element whose first field declaration carries a non-atomic type
tag that the registry built so far cannot resolve fails with the unknown
type error. -/
theorem makeType_forward_ref (tn fn ty : String) (fs : List Json)
    (restKeys : List (String × Json)) (acc : List ParamStruct)
    (hfn : fn ≠ "") (hty : ty ≠ "")
    (hatom : ParamFactory.isAtomic ty = false)
    (hfind : findType ty acc = none) :
    ParamStruct.makeType
      (.obj ((tn, .arr (.obj [("name", .str fn), ("type", .str ty)] :: fs))
        :: restKeys)) acc = .error ("Unknown type " ++ ty) := by
  simp +decide only [ParamStruct.makeType, makeTypeParams, jsonMember,
    jsonLookup, jsonGetString, ParamFactory.makeNamed, hatom, hfind,
    isEmpty_false_of_ne fn hfn, isEmpty_false_of_ne ty hty,
    Bool.or_self, Bool.false_eq_true, if_false, reduceIte]

/-- C7: `makeTypes` builds templates in schema-array order and resolves a
field's struct reference only against templates already built from earlier
elements — a field whose non-atomic type tag is not among the earlier
templates (declared later or never) fails the whole schema build with the
unknown-type error, while a schema whose struct references all point to
earlier elements builds successfully. -/
theorem claim7_makeTypes_order :
    (∀ (ts1 : List Json) (tn fn ty : String) (fs : List Json)
       (restKeys : List (String × Json)) (ts2 : List Json)
       (acc : List ParamStruct),
       makeTypesList ts1 [] = .ok acc →
       fn ≠ "" → ty ≠ "" →
       ParamFactory.isAtomic ty = false →
       findType ty acc = none →
       ParamStruct.makeTypes (.arr (ts1 ++
         (.obj ((tn, .arr (.obj [("name", .str fn), ("type", .str ty)] :: fs))
            :: restKeys)) :: ts2)) = .error ("Unknown type " ++ ty)) ∧
    (∀ ts : List Json, goodSchema [] ts = true →
       ∃ res, ParamStruct.makeTypes (.arr ts) = .ok res) := by
  constructor
  · intro ts1 tn fn ty fs restKeys ts2 acc hacc hfn hty hatom hfind
    rw [ParamStruct.makeTypes, makeTypesList_append]
    simp only [hacc, makeTypesList,
      makeType_forward_ref tn fn ty fs restKeys acc hfn hty hatom hfind]
  · intro ts hg
    rw [ParamStruct.makeTypes]
    exact makeTypesList_good ts [] []
      (by intro ty hc; simp at hc) hg

/-- Witness for C7: the forward-reference schema fails with the unknown-type
error and the well-ordered Mail schema builds. -/
theorem claim7_makeTypes_order_witness :
    ParamStruct.makeTypes fwdTypesJson = .error ("Unknown type " ++ "Person") ∧
    ∃ res, ParamStruct.makeTypes mailTypesJson = .ok res :=
  ⟨claim7_makeTypes_order.1 [] "Mail" "from" "Person" [] []
      [.obj [("Person", .arr [.obj [("name", .str "name"),
                                    ("type", .str "string")]])]] []
      rfl (by decide) (by decide) (by decide) rfl,
   claim7_makeTypes_order.2
      [.obj [("Mail", .arr [.obj [("name", .str "content"),
                                  ("type", .str "string")]])]] (by decide)⟩

/-- Witness for C4: the equivalence and the unsorted-order fact at the
concrete `B`-before-`A` struct. -/
theorem claim4_getExtraTypes_witness :
    ParamStruct.getExtraTypes unsortedEg ["Top"] =
      (concatAll (Param.collectTypes unsortedEg.toParam ["Top"]).1,
       (Param.collectTypes unsortedEg.toParam ["Top"]).2) ∧
    (ParamStruct.getExtraTypes unsortedEg ["Top"]).1 ≠
      concatAll (List.insertionSort (fun a b => alphaLe a b = true)
        (Param.collectTypes unsortedEg.toParam ["Top"]).1) :=
  claim4_getExtraTypes unsortedEg ["Top"]

/-- Witness for C10: the Mail example's binder result is not a null
struct. -/
theorem claim10_makeStruct_nonnull_witness :
    ParamStruct.makeStruct "Mail" mailValueJson mailTypesJson ≠
      Except.ok none :=
  claim10_makeStruct_nonnull.1 "Mail" mailValueJson mailTypesJson
